import Mathlib

/-!
Verification of the change-aware capture-and-correlation engine of
`brainboost_desktop_package/Desktop.py`.

The Python source is shallowly embedded: images are lists of rows of BGR
pixels (as OpenCV arrays), the mutable `Desktop` object state is an explicit
`DesktopState` record threaded through the capture functions, the sqlite
`snapshots` table is a list of rows, and Python exceptions are an explicit
`threw` flag on the result of a capture cycle.
-/

namespace Desktop

/-- One BGR pixel, channels in OpenCV order, values 0..255. -/
structure Px where
  b : Nat
  g : Nat
  r : Nat
deriving DecidableEq, Repr

/-- A raster image: a list of rows of pixels (a NumPy `h x w x 3` array). -/
abbrev Img := List (List Px)

/-- Per-channel absolute difference of two pixels (`cv2.absdiff` pointwise). -/
def absdiffPx (p q : Px) : Px :=
  ⟨max p.b q.b - min p.b q.b, max p.g q.g - min p.g q.g, max p.r q.r - min p.r q.r⟩

/-- `cv2.absdiff(a, b)`: elementwise absolute difference. -/
def absdiff (a b : Img) : Img :=
  List.zipWith (List.zipWith absdiffPx) a b

/-- OpenCV 8-bit BGR→GRAY for one pixel: fixed-point
`(R*4899 + G*9617 + B*1868 + 2^13) >> 14` (coefficients 0.299/0.587/0.114
scaled by 2^14). -/
def grayPx (p : Px) : Nat :=
  (p.r * 4899 + p.g * 9617 + p.b * 1868 + 8192) / 16384

/-- `cv2.cvtColor(diff, cv2.COLOR_BGR2GRAY)`. -/
def cvtGray (img : Img) : List (List Nat) :=
  img.map (fun row => row.map grayPx)

/-- `cv2.threshold(gray, t, 255, cv2.THRESH_BINARY)`: 255 where the value
exceeds `t`, else 0. -/
def threshBin (t : Nat) (gimg : List (List Nat)) : List (List Nat) :=
  gimg.map (fun row => row.map (fun v => if t < v then 255 else 0))

/-- All coordinates `(x, y)` of nonzero mask entries. -/
def maskPoints (mask : List (List Nat)) : List (Nat × Nat) :=
  ((List.range mask.length).map (fun y =>
    ((List.range (mask.getD y []).length).filter
      (fun x => ((mask.getD y []).getD x 0) ≠ 0)).map (fun x => (x, y)))).flatten

/-- Minimum of a list of naturals, `none` on the empty list. -/
def natsMin : List Nat → Option Nat
  | [] => none
  | a :: l =>
    some (match natsMin l with
          | none => a
          | some m => Nat.min a m)

/-- Maximum of a list of naturals, `none` on the empty list. -/
def natsMax : List Nat → Option Nat
  | [] => none
  | a :: l =>
    some (match natsMax l with
          | none => a
          | some m => Nat.max a m)

/-- `cv2.boundingRect(mask)`: the tight axis-aligned bounding rectangle
`(x, y, w, h)` of the nonzero mask pixels, `(0,0,0,0)` if there are none. -/
def boundingRect (mask : List (List Nat)) : Nat × Nat × Nat × Nat :=
  let pts := maskPoints mask
  match natsMin (pts.map Prod.fst), natsMin (pts.map Prod.snd),
        natsMax (pts.map Prod.fst), natsMax (pts.map Prod.snd) with
  | some x0, some y0, some x1, some y1 => (x0, y0, x1 - x0 + 1, y1 - y0 + 1)
  | _, _, _, _ => (0, 0, 0, 0)

/-- The change mask of `_save_screenshot_diff` (lines 123-125): absdiff,
grayscale reduction, binarization at threshold 30. -/
def changeMask (base new_img : Img) : List (List Nat) :=
  threshBin 30 (cvtGray (absdiff base new_img))

/-- The Diff Engine pipeline of `_save_screenshot_diff` (lines 123-126):
absdiff, grayscale reduction, binarize at threshold 30, bounding rectangle. -/
def diffRegion (base new_img : Img) : Nat × Nat × Nat × Nat :=
  boundingRect (changeMask base new_img)

/-- The pixel of an image at row `y`, column `x` (black if out of range). -/
def pxAt (img : Img) (y x : Nat) : Px :=
  (img.getD y []).getD x ⟨0, 0, 0⟩

/-- `new_img[y:y+h, x:x+w]`: the pixel crop of a frame at a rectangle. -/
def cropImg (img : Img) (x y w h : Nat) : Img :=
  ((img.drop y).take h).map (fun row => (row.drop x).take w)

/-- One normalized input event, as built by the `_monitor_user_input`
handlers: a keyboard event carries the key text, a mouse event carries the
click/release flag and the cursor position.  Every event carries its
observation timestamp. -/
inductive InputEvent where
  | keyboard (value : String) (timestamp : String)
  | mouse (pressed : Bool) (x y : Int) (timestamp : String)
deriving DecidableEq, Repr

/-- One OCR collaborator result: text plus corner coordinates
`(left, top, right, bottom)` (`result['rect'][0..3]`). -/
structure OcrResult where
  text : String
  left : Int
  top : Int
  right : Int
  bottom : Int
deriving DecidableEq, Repr

/-- One entry of the `text` column: `{"text": ..., "rect": {x, y, width,
height}}`. -/
structure TextAnnotation where
  text : String
  x : Int
  y : Int
  width : Int
  height : Int
deriving DecidableEq, Repr

/-- The mapping of one OCR result performed in `_save_screenshot_diff`
(lines 129-139): `x = left`, `y = top`, `width = right - left`,
`height = bottom - top`. -/
def toAnnotation (res : OcrResult) : TextAnnotation :=
  { text := res.text, x := res.left, y := res.top,
    width := res.right - res.left, height := res.bottom - res.top }

/-- One row of the `snapshots` table.  The PNG-encoded cropped diff is kept
as the cropped image itself (`cv2.imencode` is an external lossless
encoder). -/
structure SnapshotRow where
  timestamp : String
  rowType : String
  data : Img
  posX : Nat
  posY : Nat
  posW : Nat
  posH : Nat
  text : List TextAnnotation
  user_input : List InputEvent
deriving DecidableEq, Repr

/-- The mutable state of the `Desktop` object relevant to the capture path:
the baseline frame, the FIFO input queue (head = oldest event), and the
append-only `snapshots` table. -/
structure DesktopState where
  base_image : Option Img
  user_input_queue : List InputEvent
  snapshots : List SnapshotRow
deriving DecidableEq, Repr

/-- `_save_user_input` (lines 112-116): pop the queue until empty,
returning the drained events in FIFO production order. -/
def save_user_input (s : DesktopState) : List InputEvent × DesktopState :=
  (s.user_input_queue, { s with user_input_queue := [] })

/-- Result of one capture-cycle call: the post state, whether a Python
exception propagated out (`threw`), the list of images the OCR collaborator
was invoked on, and the events drained from the queue during the call. -/
structure CycleTrace where
  state : DesktopState
  threw : Bool
  ocrCalls : List Img
  drained : List InputEvent
deriving DecidableEq, Repr

/-- `_save_screenshot_diff(new_img)` (lines 118-165).  `ocr` is the external
OCR collaborator (`self.ocr.extract_text`), `storeOk` tells whether the
sqlite INSERT/commit succeeds, `ts` is `datetime.now().isoformat()`.  The
source has no try/except: a failed store write raises out of the call, after
the queue was already drained and before `self.base_image` is updated. -/
def save_screenshot_diff (ocr : Img → List OcrResult) (storeOk : Bool)
    (ts : String) (s : DesktopState) (new_img : Img) : CycleTrace :=
  match s.base_image with
  | none =>
    { state := { s with base_image := some new_img },
      threw := false, ocrCalls := [], drained := [] }
  | some base =>
    let r := diffRegion base new_img
    let annotations := (ocr new_img).map toAnnotation
    let user_inputs := (save_user_input s).1
    let s1 := (save_user_input s).2
    if 0 < r.2.2.1 ∧ 0 < r.2.2.2 then
      if storeOk then
        { state :=
            { s1 with
              snapshots := s1.snapshots ++
                [{ timestamp := ts, rowType := "desktop_screenshot",
                   data := cropImg new_img r.1 r.2.1 r.2.2.1 r.2.2.2,
                   posX := r.1, posY := r.2.1, posW := r.2.2.1, posH := r.2.2.2,
                   text := annotations, user_input := user_inputs }],
              base_image := some new_img },
          threw := false, ocrCalls := [new_img], drained := user_inputs }
      else
        { state := s1, threw := true,
          ocrCalls := [new_img], drained := user_inputs }
    else
      { state := { s1 with base_image := some new_img },
        threw := false, ocrCalls := [new_img], drained := user_inputs }

/-- `take_fullscreen_screenshot` (lines 404-425), with the Frame Source
output (the stitched, alpha-flattened `combined_screenshot`) passed in as
`frame`.  If `base_image` is `None` it is set to the frame before the diff
step; the optional file write does not touch the modeled state; the diff
step runs only when the snapshots database is enabled.  The second component
is the value returned to the caller: `some frame`, or `none` when an
exception propagated out of `_save_screenshot_diff`. -/
def take_fullscreen_screenshot (ocr : Img → List OcrResult) (storeOk : Bool)
    (ts : String) (dbEnabled : Bool) (s : DesktopState) (frame : Img) :
    CycleTrace × Option Img :=
  let s0 : DesktopState :=
    match s.base_image with
    | none => { s with base_image := some frame }
    | some _ => s
  if dbEnabled then
    let t := save_screenshot_diff ocr storeOk ts s0 frame
    (t, if t.threw then none else some frame)
  else
    ({ state := s0, threw := false, ocrCalls := [], drained := [] }, some frame)

/-- The diff region found by one capture cycle on state `s` and frame
`frame`: the diff step runs against the stored baseline, or against the
frame itself when the baseline was absent (it is set by
`take_fullscreen_screenshot` just before the diff step). -/
def cycleRegion (s : DesktopState) (frame : Img) : Nat × Nat × Nat × Nat :=
  diffRegion (s.base_image.getD frame) frame

/-- The class-level singleton bookkeeping: `Desktop._instance` (instances
are identified by a `Nat` id, so identity equality is id equality) and a
counter supplying fresh ids to constructions. -/
structure SingletonState where
  instRef : Option Nat
  nextId : Nat
deriving DecidableEq, Repr

/-- The guard at the top of `Desktop.__init__` (lines 43-45): raise
`RuntimeError` when `Desktop._instance is not None`, otherwise construct a
fresh object.  `__init__` itself never assigns `Desktop._instance`. -/
def desktopInit (g : SingletonState) : Except Unit (SingletonState × Nat) :=
  match g.instRef with
  | some _ => .error ()
  | none => .ok ({ g with nextId := g.nextId + 1 }, g.nextId)

/-- `Desktop.get_desktop_singleton` (lines 167-172): under `cls._lock`,
construct via `cls()` only when `cls._instance is None`, store the result in
`cls._instance`, and return `cls._instance`.  The `.error` branch is
unreachable: `desktopInit` only raises when an instance already exists. -/
def get_desktop_singleton (g : SingletonState) : SingletonState × Nat :=
  match g.instRef with
  | some i => (g, i)
  | none =>
    match desktopInit g with
    | .ok (g', i) => ({ g' with instRef := some i }, i)
    | .error _ => (g, 0)

/-- Iterated accessor calls, collecting the returned instance ids. -/
def getSingletonN : Nat → SingletonState → SingletonState × List Nat
  | 0, g => (g, [])
  | n + 1, g =>
    let (g', i) := get_desktop_singleton g
    let (g'', is) := getSingletonN n g'
    (g'', i :: is)

/-- The configuration options consulted during `Desktop.__init__`. -/
structure Config where
  snapshots_database_enabled : Bool
  monitor_user_input : Bool
deriving DecidableEq, Repr

/-- Observable side effects of `Desktop.__init__` (lines 43-59). -/
structure InitEffects where
  connectionsOpened : Nat
  schemaCreated : Bool
  collectorStarted : Bool
  base_image_init : Option Img
deriving DecidableEq, Repr

/-- The side effects of `Desktop.__init__` as the source performs them:
`init_database` (lines 61-76) opens a connection and creates the schema only
when `snapshots_database_enabled`; line 49 then opens a second connection
unconditionally; line 56 overrides `monitor_user_input` to `True` before
line 57 consults it, so the collector thread always starts; `base_image` is
initialized to `None` (line 47). -/
def desktop_init_effects (cfg : Config) : InitEffects :=
  let dbConnections := (if cfg.snapshots_database_enabled then 1 else 0) + 1
  let cfgOverridden := { cfg with monitor_user_input := true }
  { connectionsOpened := dbConnections
    schemaCreated := cfg.snapshots_database_enabled
    collectorStarted := cfgOverridden.monitor_user_input
    base_image_init := none }

/-- One raw OS-level input observation delivered to a listener handler.
`recordFails` abstracts whether recording this event (building the payload,
logging, or the queue put) raises inside the handler. -/
inductive RawEvent where
  | keyPress (key : String) (ts : String) (recordFails : Bool)
  | mouseClick (x y : Int) (pressed : Bool) (ts : String) (recordFails : Bool)
deriving DecidableEq, Repr

/-- The two listeners of `_monitor_user_input` (lines 81-108) applied to
one chronological stream of raw observations (the keyboard and mouse
listeners run on independent pynput threads; the shared queue serializes
their `put`s in observation order).  `on_key_press` wraps its body in
try/except (log and continue), so the keyboard listener never stops.
`on_mouse_click` has no handler-level try/except, so an exception raised
while recording a mouse event stops the mouse listener only: from then on
mouse observations are no longer delivered, while keyboard observations
keep being recorded.  pynput stores the mouse exception to re-raise it at
`mouse_listener.join()` (line 108), but that line is never reached behind
the forever-blocking `key_listener.join()` (line 107), so the exception is
never re-raised and never logged.  `mouseStopped` tells whether the mouse
listener has already died; the result is the enqueued events plus the final
mouse-listener state. -/
def runListenersFrom : Bool → List RawEvent → List InputEvent × Bool
  | mouseStopped, [] => ([], mouseStopped)
  | mouseStopped, .keyPress key ts fails :: rest =>
    if fails then runListenersFrom mouseStopped rest
    else
      (.keyboard key ts :: (runListenersFrom mouseStopped rest).1,
       (runListenersFrom mouseStopped rest).2)
  | mouseStopped, .mouseClick x y pressed ts fails :: rest =>
    if mouseStopped then runListenersFrom mouseStopped rest
    else if fails then runListenersFrom true rest
    else
      (.mouse pressed x y ts :: (runListenersFrom mouseStopped rest).1,
       (runListenersFrom mouseStopped rest).2)

/-- The listener pair started with both listeners alive. -/
def runListeners (events : List RawEvent) : List InputEvent × Bool :=
  runListenersFrom false events

/-- `_monitor_user_input` including the startup path: when starting the OS
listeners raises (`startOk = false`), the outer except of lines 109-110 logs
and the collector contributes no events for the process lifetime. -/
def monitor_user_input (startOk : Bool) (events : List RawEvent) :
    List InputEvent × Bool :=
  if startOk then runListeners events else ([], false)

/-- One step of the whole system: the Collector enqueues an event, or a
caller runs one capture cycle (`take_fullscreen_screenshot` with the
snapshots database enabled). -/
inductive SysStep where
  | produce (e : InputEvent)
  | capture (ocr : Img → List OcrResult) (storeOk : Bool) (ts : String)
      (frame : Img)

/-- Execute one system step on the desktop state. -/
def sysStep (s : DesktopState) : SysStep → DesktopState
  | .produce e => { s with user_input_queue := s.user_input_queue ++ [e] }
  | .capture ocr storeOk ts frame =>
    (take_fullscreen_screenshot ocr storeOk ts true s frame).1.state

/-- Execute a sequence of system steps. -/
def runSys (steps : List SysStep) (s : DesktopState) : DesktopState :=
  steps.foldl sysStep s

/-- An event is visible in the state: still queued, or persisted in some
snapshot row. -/
def eventInState (e : InputEvent) (s : DesktopState) : Prop :=
  e ∈ s.user_input_queue ∨ ∃ row ∈ s.snapshots, e ∈ row.user_input

/-- The shared-state footprint of one capture cycle's read-compare-update of
`base_image`, for the concurrency analysis: each of two concurrent cycles
reads the baseline (to diff against) and later writes its own frame.  The
source acquires no lock around these accesses (`self.lock` is created at
line 50 and never used), so any interleaving of the four atomic accesses is
possible. -/
structure RaceState where
  base : Img
  read0 : Option Img
  read1 : Option Img
deriving DecidableEq, Repr

/-- One atomic shared-memory access of one of the two concurrent cycles. -/
inductive RStep where
  | read0
  | write0
  | read1
  | write1
deriving DecidableEq, Repr

/-- Execute one atomic access; thread `i` captures frame `f_i`. -/
def rexec (f0 f1 : Img) (s : RaceState) : RStep → RaceState
  | .read0 => { s with read0 := some s.base }
  | .write0 => { s with base := f0 }
  | .read1 => { s with read1 := some s.base }
  | .write1 => { s with base := f1 }

/-- Execute a schedule of atomic accesses. -/
def rrun (f0 f1 : Img) (s : RaceState) (sched : List RStep) : RaceState :=
  sched.foldl (rexec f0 f1) s

end Desktop

namespace Desktop

theorem absdiffPx_self (p : Px) : absdiffPx p p = ⟨0, 0, 0⟩ := by
  simp [absdiffPx]

theorem grayPx_zero : grayPx ⟨0, 0, 0⟩ = 0 := by decide

theorem getD_map (f : α → β) (l : List α) (i : Nat) (d : α) (dflt : β)
    (h : i < l.length) : (l.map f).getD i dflt = f (l.getD i d) := by
  induction l generalizing i with
  | nil => simp at h
  | cons a l ih =>
    cases i with
    | zero => simp [List.getD]
    | succ i =>
      simp only [List.length_cons, Nat.succ_lt_succ_iff] at h
      simpa [List.getD] using ih i h

theorem getD_zipWith (f : α → β → γ) (a : List α) (b : List β) (i : Nat)
    (da : α) (db : β) (d : γ) (ha : i < a.length) (hb : i < b.length) :
    (List.zipWith f a b).getD i d = f (a.getD i da) (b.getD i db) := by
  induction a generalizing b i with
  | nil => simp at ha
  | cons x xs ih =>
    cases b with
    | nil => simp at hb
    | cons y ys =>
      cases i with
      | zero => simp [List.getD]
      | succ i =>
        simp only [List.length_cons, Nat.succ_lt_succ_iff] at ha hb
        simpa [List.getD] using ih ys i ha hb

/-- Membership in `maskPoints`: exactly the in-range coordinates whose mask
entry is nonzero. -/
theorem mem_maskPoints {mask : List (List Nat)} {x y : Nat} :
    (x, y) ∈ maskPoints mask ↔
      y < mask.length ∧ x < (mask.getD y []).length ∧
        (mask.getD y []).getD x 0 ≠ 0 := by
  unfold maskPoints
  simp only [List.mem_flatten, List.mem_map, List.mem_range]
  constructor
  · rintro ⟨l, ⟨y', hy', rfl⟩, hmem⟩
    obtain ⟨x', hx', hpair⟩ := List.mem_map.mp hmem
    injection hpair with h1 h2
    subst h1
    subst h2
    obtain ⟨hxr, hxv⟩ := List.mem_filter.mp hx'
    exact ⟨hy', List.mem_range.mp hxr, by simpa using hxv⟩
  · rintro ⟨hy, hx, hv⟩
    exact ⟨_, ⟨y, hy, rfl⟩, List.mem_map.mpr
      ⟨x, List.mem_filter.mpr ⟨List.mem_range.mpr hx, by simpa using hv⟩, rfl⟩⟩

theorem natsMin_mem : ∀ {l : List Nat} {m : Nat}, natsMin l = some m → m ∈ l
  | [], _, h => by simp [natsMin] at h
  | a :: l, m, h => by
    cases hmin : natsMin l with
    | none =>
      simp [natsMin, hmin] at h
      simp [h]
    | some k =>
      have hk := natsMin_mem hmin
      simp [natsMin, hmin] at h
      rcases Nat.le_total a k with hak | hka
      · simp [Nat.min_eq_left hak] at h
        simp [h]
      · simp [Nat.min_eq_right hka] at h
        exact h ▸ List.mem_cons_of_mem _ hk

theorem natsMin_le : ∀ {l : List Nat} {m : Nat}, natsMin l = some m →
    ∀ b ∈ l, m ≤ b
  | [], _, h => by simp [natsMin] at h
  | a :: l, m, h => by
    intro b hb
    cases hmin : natsMin l with
    | none =>
      cases l with
      | nil =>
        simp [natsMin] at h
        rcases List.mem_cons.mp hb with rfl | hb'
        · omega
        · simp at hb'
      | cons c l' => simp [natsMin] at hmin
    | some k =>
      have hle := natsMin_le hmin
      simp [natsMin, hmin] at h
      have h' : min a k = m := h
      rcases List.mem_cons.mp hb with rfl | hb'
      · omega
      · have := hle b hb'
        omega

theorem natsMin_eq_some {l : List Nat} {m : Nat} (hm : m ∈ l)
    (hle : ∀ b ∈ l, m ≤ b) : natsMin l = some m := by
  cases hmin : natsMin l with
  | none =>
    cases l with
    | nil => simp at hm
    | cons a l' => simp [natsMin] at hmin
  | some k =>
    have hk := natsMin_mem hmin
    have h1 := natsMin_le hmin m hm
    have h2 := hle k hk
    exact congrArg some (Nat.le_antisymm h1 h2)

theorem natsMax_mem : ∀ {l : List Nat} {m : Nat}, natsMax l = some m → m ∈ l
  | [], _, h => by simp [natsMax] at h
  | a :: l, m, h => by
    cases hmax : natsMax l with
    | none =>
      simp [natsMax, hmax] at h
      simp [h]
    | some k =>
      have hk := natsMax_mem hmax
      simp [natsMax, hmax] at h
      rcases Nat.le_total a k with hak | hka
      · simp [Nat.max_eq_right hak] at h
        exact h ▸ List.mem_cons_of_mem _ hk
      · simp [Nat.max_eq_left hka] at h
        simp [h]

theorem natsMax_ge : ∀ {l : List Nat} {m : Nat}, natsMax l = some m →
    ∀ b ∈ l, b ≤ m
  | [], _, h => by simp [natsMax] at h
  | a :: l, m, h => by
    intro b hb
    cases hmax : natsMax l with
    | none =>
      cases l with
      | nil =>
        simp [natsMax] at h
        rcases List.mem_cons.mp hb with rfl | hb'
        · omega
        · simp at hb'
      | cons c l' => simp [natsMax] at hmax
    | some k =>
      have hle := natsMax_ge hmax
      simp [natsMax, hmax] at h
      have h' : max a k = m := h
      rcases List.mem_cons.mp hb with rfl | hb'
      · omega
      · have := hle b hb'
        omega

theorem natsMax_eq_some {l : List Nat} {m : Nat} (hm : m ∈ l)
    (hge : ∀ b ∈ l, b ≤ m) : natsMax l = some m := by
  cases hmax : natsMax l with
  | none =>
    cases l with
    | nil => simp at hm
    | cons a l' => simp [natsMax] at hmax
  | some k =>
    have hk := natsMax_mem hmax
    have h1 := natsMax_ge hmax m hm
    have h2 := hge k hk
    exact congrArg some (Nat.le_antisymm h2 h1)

theorem changeMask_length (base new_img : Img) :
    (changeMask base new_img).length = min base.length new_img.length := by
  simp [changeMask, threshBin, cvtGray, absdiff]

theorem changeMask_row (base new_img : Img) (y : Nat)
    (hy : y < base.length) (hy2 : y < new_img.length) :
    (changeMask base new_img).getD y []
      = (List.zipWith absdiffPx (base.getD y []) (new_img.getD y [])).map
          (fun p => if 30 < grayPx p then 255 else 0) := by
  have hMlen : y < (absdiff base new_img).length := by
    simp [absdiff]
    omega
  have hMrow : (absdiff base new_img).getD y []
      = List.zipWith absdiffPx (base.getD y []) (new_img.getD y []) := by
    unfold absdiff
    exact getD_zipWith (List.zipWith absdiffPx) base new_img y [] [] [] hy hy2
  have hGlen : y < (cvtGray (absdiff base new_img)).length := by
    simpa [cvtGray] using hMlen
  unfold changeMask threshBin cvtGray
  rw [getD_map _ _ y [] [] (by simpa [cvtGray] using hGlen),
      getD_map _ _ y [] [] hMlen, hMrow, List.map_map]
  rfl

theorem changeMask_row_length (base new_img : Img) (y : Nat)
    (hy : y < base.length) (hy2 : y < new_img.length) :
    ((changeMask base new_img).getD y []).length
      = min (base.getD y []).length (new_img.getD y []).length := by
  rw [changeMask_row base new_img y hy hy2]
  simp

theorem changeMask_getD (base new_img : Img) (y x : Nat)
    (hy : y < base.length) (hy2 : y < new_img.length)
    (hx : x < (base.getD y []).length) (hx2 : x < (new_img.getD y []).length) :
    ((changeMask base new_img).getD y []).getD x 0 =
      if 30 < grayPx (absdiffPx (pxAt base y x) (pxAt new_img y x)) then 255
      else 0 := by
  rw [changeMask_row base new_img y hy hy2]
  have hlen :
      x < (List.zipWith absdiffPx (base.getD y []) (new_img.getD y [])).length := by
    rw [List.length_zipWith]
    omega
  rw [getD_map _ _ x ⟨0, 0, 0⟩ 0 hlen,
      getD_zipWith absdiffPx (base.getD y []) (new_img.getD y []) x
        ⟨0, 0, 0⟩ ⟨0, 0, 0⟩ ⟨0, 0, 0⟩ hx hx2]
  rfl

theorem boundingRect_eq (mask : List (List Nat)) (x0 y0 x1 y1 : Nat)
    (hminx : natsMin ((maskPoints mask).map Prod.fst) = some x0)
    (hminy : natsMin ((maskPoints mask).map Prod.snd) = some y0)
    (hmaxx : natsMax ((maskPoints mask).map Prod.fst) = some x1)
    (hmaxy : natsMax ((maskPoints mask).map Prod.snd) = some y1) :
    boundingRect mask = (x0, y0, x1 - x0 + 1, y1 - y0 + 1) := by
  simp only [boundingRect, hminx, hminy, hmaxx, hmaxy]

theorem boundingRect_nil (mask : List (List Nat))
    (h : maskPoints mask = []) : boundingRect mask = (0, 0, 0, 0) := by
  simp only [boundingRect, h, List.map_nil, natsMin, natsMax]

/-- The change mask of a frame against itself has no nonzero entry. -/
theorem maskPoints_self (a : Img) : maskPoints (changeMask a a) = [] := by
  rw [List.eq_nil_iff_forall_not_mem]
  rintro ⟨x, y⟩ hp
  rw [mem_maskPoints] at hp
  obtain ⟨hy, hx, hv⟩ := hp
  have hmlen := changeMask_length a a
  have hy' : y < a.length := by omega
  have hrl := changeMask_row_length a a y hy' hy'
  have hx' : x < (a.getD y []).length := by omega
  rw [changeMask_getD a a y x hy' hy' hx' hx', absdiffPx_self, grayPx_zero] at hv
  simp at hv

/-- The Diff Engine reports the degenerate region on identical frames. -/
theorem diffRegion_self (a : Img) : diffRegion a a = (0, 0, 0, 0) := by
  unfold diffRegion
  exact boundingRect_nil _ (maskPoints_self a)

/-- The Diff Engine on frames that agree outside the rectangle
`R = [rx, rx+rw) x [ry, ry+rh)` and whose gray diff exceeds the threshold at
every pixel of `R` returns exactly `R`. -/
theorem diffRegion_rect (base new_img : Img) (rx ry rw rh : Nat)
    (hrw : 0 < rw) (hrh : 0 < rh)
    (hlen : new_img.length = base.length)
    (hrowlen : ∀ y, (new_img.getD y []).length = (base.getD y []).length)
    (hyb : ry + rh ≤ base.length)
    (hxb : ∀ y, y < base.length → rx + rw ≤ (base.getD y []).length)
    (hin : ∀ x y, rx ≤ x → x < rx + rw → ry ≤ y → y < ry + rh →
      30 < grayPx (absdiffPx (pxAt base y x) (pxAt new_img y x)))
    (hout : ∀ x y, y < base.length → x < (base.getD y []).length →
      ¬(rx ≤ x ∧ x < rx + rw ∧ ry ≤ y ∧ y < ry + rh) →
      pxAt base y x = pxAt new_img y x) :
    diffRegion base new_img = (rx, ry, rw, rh) := by
  have hmlen := changeMask_length base new_img
  have hmem : ∀ x y, (x, y) ∈ maskPoints (changeMask base new_img) ↔
      (rx ≤ x ∧ x < rx + rw ∧ ry ≤ y ∧ y < ry + rh) := by
    intro x y
    rw [mem_maskPoints]
    constructor
    · rintro ⟨hy, hx, hv⟩
      have hy' : y < base.length := by omega
      have hy2 : y < new_img.length := by omega
      have hx' : x < (base.getD y []).length := by
        have := changeMask_row_length base new_img y hy' hy2
        have := hrowlen y
        omega
      have hx2 : x < (new_img.getD y []).length := by
        have := changeMask_row_length base new_img y hy' hy2
        have := hrowlen y
        omega
      by_contra hR
      have heq := hout x y hy' hx' hR
      rw [changeMask_getD base new_img y x hy' hy2 hx' hx2, heq,
        absdiffPx_self, grayPx_zero] at hv
      simp at hv
    · rintro ⟨h1, h2, h3, h4⟩
      have hy' : y < base.length := by omega
      have hy2 : y < new_img.length := by omega
      have hx' : x < (base.getD y []).length := by
        have := hxb y hy'
        omega
      have hx2 : x < (new_img.getD y []).length := by
        have := hxb y hy'
        have := hrowlen y
        omega
      refine ⟨by omega, ?_, ?_⟩
      · have := changeMask_row_length base new_img y hy' hy2
        have := hrowlen y
        omega
      · rw [changeMask_getD base new_img y x hy' hy2 hx' hx2]
        have := hin x y h1 h2 h3 h4
        simp [this]
  have hmemx : ∀ b, b ∈ (maskPoints (changeMask base new_img)).map Prod.fst ↔
      (rx ≤ b ∧ b < rx + rw) := by
    intro b
    constructor
    · intro hb
      obtain ⟨⟨x, y⟩, hxy, rfl⟩ := List.mem_map.mp hb
      have := (hmem x y).mp hxy
      exact ⟨this.1, this.2.1⟩
    · intro hb
      exact List.mem_map.mpr
        ⟨(b, ry), (hmem b ry).mpr ⟨hb.1, hb.2, le_refl _, by omega⟩, rfl⟩
  have hmemy : ∀ b, b ∈ (maskPoints (changeMask base new_img)).map Prod.snd ↔
      (ry ≤ b ∧ b < ry + rh) := by
    intro b
    constructor
    · intro hb
      obtain ⟨⟨x, y⟩, hxy, rfl⟩ := List.mem_map.mp hb
      have := (hmem x y).mp hxy
      exact ⟨this.2.2.1, this.2.2.2⟩
    · intro hb
      exact List.mem_map.mpr
        ⟨(rx, b), (hmem rx b).mpr ⟨le_refl _, by omega, hb.1, hb.2⟩, rfl⟩
  have hminx :
      natsMin ((maskPoints (changeMask base new_img)).map Prod.fst) = some rx :=
    natsMin_eq_some ((hmemx rx).mpr ⟨le_refl _, by omega⟩)
      (fun b hb => ((hmemx b).mp hb).1)
  have hminy :
      natsMin ((maskPoints (changeMask base new_img)).map Prod.snd) = some ry :=
    natsMin_eq_some ((hmemy ry).mpr ⟨le_refl _, by omega⟩)
      (fun b hb => ((hmemy b).mp hb).1)
  have hmaxx : natsMax ((maskPoints (changeMask base new_img)).map Prod.fst)
      = some (rx + rw - 1) :=
    natsMax_eq_some ((hmemx (rx + rw - 1)).mpr ⟨by omega, by omega⟩)
      (fun b hb => by have := ((hmemx b).mp hb).2; omega)
  have hmaxy : natsMax ((maskPoints (changeMask base new_img)).map Prod.snd)
      = some (ry + rh - 1) :=
    natsMax_eq_some ((hmemy (ry + rh - 1)).mpr ⟨by omega, by omega⟩)
      (fun b hb => by have := ((hmemy b).mp hb).2; omega)
  unfold diffRegion
  rw [boundingRect_eq _ rx ry (rx + rw - 1) (ry + rh - 1) hminx hminy hmaxx hmaxy]
  have h3 : rx + rw - 1 - rx + 1 = rw := by omega
  have h4 : ry + rh - 1 - ry + 1 = rh := by omega
  rw [h3, h4]

/-! Concrete fixtures used by counterexamples and witnesses. -/

/-- A 1x1 black frame. -/
def img0 : Img := [[⟨0, 0, 0⟩]]

/-- A 1x1 white frame. -/
def img1 : Img := [[⟨255, 255, 255⟩]]

/-- An OCR collaborator returning no text. -/
def ocrNone : Img → List OcrResult := fun _ => []

/-- A state holding a black baseline, an empty queue and an empty table. -/
def state0 : DesktopState :=
  { base_image := some img0, user_input_queue := [], snapshots := [] }

/-- One concrete keyboard event. -/
def evK : InputEvent := .keyboard "a" "t0"

/-- A state holding a black baseline and one queued keyboard event. -/
def state1 : DesktopState :=
  { base_image := some img0, user_input_queue := [evK], snapshots := [] }

/-- C3: with persistence enabled and a working store, one capture cycle
appends a SnapshotRecord iff the Diff Engine found a region of positive
width and height, and the first capture on a fresh state (absent baseline)
appends no record and sets the baseline to the captured frame. -/
theorem C3_record_iff_nondegenerate (ocr : Img → List OcrResult) (ts : String)
    (s : DesktopState) (frame : Img) :
    ((take_fullscreen_screenshot ocr true ts true s frame).1.state.snapshots.length
        = s.snapshots.length + 1
      ↔ 0 < (cycleRegion s frame).2.2.1 ∧ 0 < (cycleRegion s frame).2.2.2) ∧
    (s.base_image = none →
      (take_fullscreen_screenshot ocr true ts true s frame).1.state.snapshots
          = s.snapshots ∧
      (take_fullscreen_screenshot ocr true ts true s frame).1.state.base_image
          = some frame) := by
  cases hb : s.base_image with
  | none =>
    simp [take_fullscreen_screenshot, save_screenshot_diff, save_user_input,
      cycleRegion, hb, diffRegion_self]
  | some base =>
    simp only [take_fullscreen_screenshot, save_screenshot_diff,
      save_user_input, cycleRegion, hb, Option.getD_some]
    constructor
    · by_cases hcond :
        0 < (diffRegion base frame).2.2.1 ∧ 0 < (diffRegion base frame).2.2.2
      · simp [hcond]
      · simp [hcond]
    · intro hnone
      exact Option.noConfusion hnone

/-- Witness for C3 at a concrete input: a fresh state and a black frame. -/
theorem C3_witness :
    ({ base_image := none, user_input_queue := [], snapshots := [] } :
        DesktopState).base_image = none ∧
    (take_fullscreen_screenshot ocrNone true "t" true
        { base_image := none, user_input_queue := [], snapshots := [] }
        img0).1.state.snapshots = [] ∧
    (take_fullscreen_screenshot ocrNone true "t" true
        { base_image := none, user_input_queue := [], snapshots := [] }
        img0).1.state.base_image = some img0 := by
  have h := C3_record_iff_nondegenerate ocrNone "t"
    { base_image := none, user_input_queue := [], snapshots := [] } img0
  have h2 := h.2 rfl
  exact ⟨rfl, h2.1, h2.2⟩

/-- C1 counterexample: with a black baseline and a white frame (so the diff
is non-degenerate) and a failing store write, the capture-cycle call throws
(the caller gets no frame back) and the baseline is NOT updated to the new
frame — refuting the claim that a store failure is swallowed and the
baseline still advances. -/
theorem C1_counterexample :
    (take_fullscreen_screenshot ocrNone false "t" true state0 img1).1.threw
        = true ∧
    (take_fullscreen_screenshot ocrNone false "t" true state0 img1).2
        = none ∧
    (take_fullscreen_screenshot ocrNone false "t" true state0 img1).1.state.base_image
        ≠ some img1 := by
  decide

/-- C1 (amended): nothing in `_save_screenshot_diff` or
`take_fullscreen_screenshot` catches a store-write failure.  On a cycle
whose diff is non-degenerate and whose store write fails, the exception
propagates out of the capture-cycle call, the caller receives no frame, the
baseline keeps its old value (it does not advance), no row is appended, and
the already-drained queue events are lost. -/
theorem C1_store_failure_propagates (ocr : Img → List OcrResult) (ts : String)
    (s : DesktopState) (frame base : Img)
    (hb : s.base_image = some base)
    (hw : 0 < (diffRegion base frame).2.2.1)
    (hh : 0 < (diffRegion base frame).2.2.2) :
    (take_fullscreen_screenshot ocr false ts true s frame).1.threw = true ∧
    (take_fullscreen_screenshot ocr false ts true s frame).2 = none ∧
    (take_fullscreen_screenshot ocr false ts true s frame).1.state.base_image
        = some base ∧
    (take_fullscreen_screenshot ocr false ts true s frame).1.state.snapshots
        = s.snapshots ∧
    (take_fullscreen_screenshot ocr false ts true s frame).1.state.user_input_queue
        = [] := by
  simp [take_fullscreen_screenshot, save_screenshot_diff, save_user_input,
    hb, hw, hh]

/-- Witness for C1 (amended) at the concrete black-baseline/white-frame
input. -/
theorem C1_witness :
    state0.base_image = some img0 ∧
    0 < (diffRegion img0 img1).2.2.1 ∧
    (take_fullscreen_screenshot ocrNone false "t" true state0 img1).1.threw
        = true ∧
    (take_fullscreen_screenshot ocrNone false "t" true state0 img1).1.state.base_image
        = some img0 := by
  have h := C1_store_failure_propagates ocrNone "t" state0 img1 img0 rfl
    (by decide) (by decide)
  exact ⟨rfl, by decide, h.1, h.2.2.1⟩

/-- C2 counterexample: a cycle whose diff is degenerate (the frame equals
the baseline) still drains the queue, and the drained event is attached to
no SnapshotRecord — refuting both "the queue drain runs only when the Diff
Engine reports a non-degenerate region" and "no queued event is ever
discarded without being attached to a SnapshotRecord". -/
theorem C2_counterexample :
    diffRegion img0 img0 = (0, 0, 0, 0) ∧
    (take_fullscreen_screenshot ocrNone true "t" true state1 img0).1.drained
        = [evK] ∧
    (take_fullscreen_screenshot ocrNone true "t" true state1 img0).1.state.user_input_queue
        = [] ∧
    (take_fullscreen_screenshot ocrNone true "t" true state1 img0).1.state.snapshots
        = [] := by
  decide

/-- C2 (amended): the drain runs on every cycle whose diff step sees a
non-`None` baseline, degenerate or not.  On any such cycle the drained
events are exactly the queued ones in production order and the queue is
empty immediately after (so a subsequent drain before any new event returns
the empty list); when the region is non-degenerate and the store write
succeeds, the persisted `user_input` column of the appended record is
exactly the drained queue in production order.  Events drained on a
degenerate cycle are discarded (see the counterexample). -/
theorem C2_drain_protocol (ocr : Img → List OcrResult) (storeOk : Bool)
    (ts : String) (s : DesktopState) (frame base : Img)
    (hb : s.base_image = some base) :
    (save_screenshot_diff ocr storeOk ts s frame).drained
        = s.user_input_queue ∧
    (save_screenshot_diff ocr storeOk ts s frame).state.user_input_queue
        = [] ∧
    (save_user_input (save_screenshot_diff ocr storeOk ts s frame).state).1
        = [] ∧
    (storeOk = true →
      0 < (diffRegion base frame).2.2.1 → 0 < (diffRegion base frame).2.2.2 →
      ((save_screenshot_diff ocr storeOk ts s frame).state.snapshots.map
          SnapshotRow.user_input)
        = (s.snapshots.map SnapshotRow.user_input) ++ [s.user_input_queue]) := by
  by_cases hcond :
      0 < (diffRegion base frame).2.2.1 ∧ 0 < (diffRegion base frame).2.2.2
  · cases storeOk
    · simp [save_screenshot_diff, save_user_input, hb, hcond]
    · simp [save_screenshot_diff, save_user_input, hb, hcond]
  · have hAll : save_screenshot_diff ocr storeOk ts s frame =
        { state := { s with user_input_queue := [], base_image := some frame },
          threw := false, ocrCalls := [frame], drained := s.user_input_queue } := by
      simp [save_screenshot_diff, save_user_input, hb, hcond]
    rw [hAll]
    refine ⟨rfl, rfl, rfl, ?_⟩
    intro _ h2 h3
    exact absurd ⟨h2, h3⟩ hcond

/-- Witness for C2 (amended): one queued event, a non-degenerate diff, a
working store: the appended record carries exactly that event. -/
theorem C2_witness :
    state1.base_image = some img0 ∧
    ((save_screenshot_diff ocrNone true "t" state1 img1).state.snapshots.map
        SnapshotRow.user_input) = [[evK]] ∧
    (save_screenshot_diff ocrNone true "t" state1 img1).state.user_input_queue
        = [] := by
  have h := C2_drain_protocol ocrNone true "t" state1 img1 img0 rfl
  refine ⟨rfl, ?_, h.2.1⟩
  have h4 := h.2.2.2 rfl (by decide) (by decide)
  simpa [state1] using h4

/-- C4: the Diff Engine (absdiff, single-channel reduction, binarization at
threshold 30, bounding rectangle of the nonzero mask) satisfies: identical
frames yield the degenerate region, and a new frame differing from the
baseline only inside a rectangle `R` (with above-threshold gray differences
filling `R`) yields exactly `R`. -/
theorem C4_diff_pipeline :
    (∀ a b : Img, a = b → diffRegion a b = (0, 0, 0, 0)) ∧
    (∀ (base new_img : Img) (rx ry rw rh : Nat),
      0 < rw → 0 < rh →
      new_img.length = base.length →
      (∀ y, (new_img.getD y []).length = (base.getD y []).length) →
      ry + rh ≤ base.length →
      (∀ y, y < base.length → rx + rw ≤ (base.getD y []).length) →
      (∀ x y, rx ≤ x → x < rx + rw → ry ≤ y → y < ry + rh →
        30 < grayPx (absdiffPx (pxAt base y x) (pxAt new_img y x))) →
      (∀ x y, y < base.length → x < (base.getD y []).length →
        ¬(rx ≤ x ∧ x < rx + rw ∧ ry ≤ y ∧ y < ry + rh) →
        pxAt base y x = pxAt new_img y x) →
      diffRegion base new_img = (rx, ry, rw, rh)) :=
  ⟨fun a _ h => h ▸ diffRegion_self a,
   fun base new_img rx ry rw rh h1 h2 h3 h4 h5 h6 h7 h8 =>
     diffRegion_rect base new_img rx ry rw rh h1 h2 h3 h4 h5 h6 h7 h8⟩

/-- Witness for C4: identical 1x1 black frames give the degenerate region;
a white pixel composited over a black 1x1 baseline gives exactly the
rectangle `(0, 0, 1, 1)`. -/
theorem C4_witness :
    diffRegion img0 img0 = (0, 0, 0, 0) ∧
    diffRegion img0 img1 = (0, 0, 1, 1) := by
  refine ⟨C4_diff_pipeline.1 img0 img0 rfl, ?_⟩
  refine C4_diff_pipeline.2 img0 img1 0 0 1 1 (by decide) (by decide) rfl
    ?_ (by decide) ?_ ?_ ?_
  · intro y
    cases y with
    | zero => rfl
    | succ n => rfl
  · intro y hy
    have hl : img0.length = 1 := rfl
    have hy0 : y = 0 := by omega
    subst hy0
    decide
  · intro x y h1 h2 h3 h4
    have hx0 : x = 0 := by omega
    have hy0 : y = 0 := by omega
    subst hx0
    subst hy0
    decide
  · intro x y hy hx hR
    exfalso
    have hl : img0.length = 1 := rfl
    have hy0 : y = 0 := by omega
    subst hy0
    have hrl : (img0.getD 0 []).length = 1 := rfl
    have hx0 : x = 0 := by omega
    subst hx0
    exact hR ⟨Nat.le_refl 0, by omega, Nat.le_refl 0, by omega⟩

theorem getSingleton_instRef (g : SingletonState) :
    (get_desktop_singleton g).1.instRef = some (get_desktop_singleton g).2 := by
  cases hg : g.instRef <;> simp [get_desktop_singleton, desktopInit, hg]

theorem getSingleton_stable (g : SingletonState) (i : Nat)
    (h : g.instRef = some i) : get_desktop_singleton g = (g, i) := by
  simp [get_desktop_singleton, h]

theorem getSingletonN_stable (n : Nat) (g : SingletonState) (i : Nat)
    (h : g.instRef = some i) :
    getSingletonN n g = (g, List.replicate n i) := by
  induction n with
  | zero => simp [getSingletonN]
  | succ n ih =>
    simp [getSingletonN, getSingleton_stable g i h, ih, List.replicate_succ]

/-- C5 counterexample: while no instance has been created
(`Desktop._instance is None`), direct construction succeeds rather than
raising the usage error — refuting "any direct construction of the capture
object outside the accessor fails with a usage error". -/
theorem C5_counterexample :
    desktopInit { instRef := none, nextId := 0 }
      = .ok ({ instRef := none, nextId := 1 }, 0) := by
  rfl

/-- C5 (amended): the accessor returns the same instance (identity) on
every call and constructs at most once (the fresh-id counter grows by at
most one over any number of calls); direct construction fails with the
usage error exactly when the singleton instance already exists — before
any accessor call it succeeds (and does not register the instance). -/
theorem C5_singleton_accessor (g : SingletonState) (n : Nat) :
    (getSingletonN n g).2 = List.replicate n (get_desktop_singleton g).2 ∧
    (getSingletonN n g).1.nextId ≤ g.nextId + 1 ∧
    (∀ j, g.instRef = some j → desktopInit g = .error ()) ∧
    (g.instRef = none →
      desktopInit g = .ok ({ g with nextId := g.nextId + 1 }, g.nextId)) := by
  refine ⟨?_, ?_, ?_, ?_⟩
  · cases n with
    | zero => simp [getSingletonN]
    | succ n =>
      have hpost := getSingleton_instRef g
      have hstable := getSingletonN_stable n (get_desktop_singleton g).1
        (get_desktop_singleton g).2 hpost
      simp [getSingletonN, hstable, List.replicate_succ]
  · cases n with
    | zero => simp [getSingletonN]
    | succ n =>
      have hpost := getSingleton_instRef g
      have hstable := getSingletonN_stable n (get_desktop_singleton g).1
        (get_desktop_singleton g).2 hpost
      simp only [getSingletonN, hstable]
      cases hg : g.instRef with
      | none => simp [get_desktop_singleton, desktopInit, hg]
      | some i => simp [get_desktop_singleton, hg]
  · intro j hj
    simp [desktopInit, hj]
  · intro hnone
    simp [desktopInit, hnone]

/-- Witness for C5 (amended): three accessor calls from a fresh state all
return instance 0, and direct construction fails once the instance
exists. -/
theorem C5_witness :
    (getSingletonN 3 { instRef := none, nextId := 0 }).2 = [0, 0, 0] ∧
    desktopInit { instRef := some 0, nextId := 1 } = .error () := by
  have h1 := C5_singleton_accessor { instRef := none, nextId := 0 } 3
  have h2 := C5_singleton_accessor { instRef := some 0, nextId := 1 } 0
  exact ⟨by rw [h1.1]; rfl, h2.2.2.1 0 rfl⟩

/-- C6 counterexample: with persistence disabled one store connection is
still opened (line 49 connects unconditionally), and with input monitoring
disabled the collector thread still starts (line 56 overrides the option to
`True` before line 57 reads it) — refuting "when persistence is disabled no
store connection is opened, and when input monitoring is disabled no
collector thread is started". -/
theorem C6_counterexample :
    (desktop_init_effects
      { snapshots_database_enabled := false,
        monitor_user_input := false }).connectionsOpened = 1 ∧
    (desktop_init_effects
      { snapshots_database_enabled := false,
        monitor_user_input := false }).collectorStarted = true := by
  decide

/-- C6 (amended): construction creates the store schema iff persistence is
enabled, but opens one store connection even when persistence is disabled
(two when it is enabled); the collector thread starts regardless of the
configured input-monitoring flag, because construction overrides that flag
to enabled before consulting it; the baseline frame is initialized to
`None`. -/
theorem C6_init_effects (cfg : Config) :
    (desktop_init_effects cfg).schemaCreated = cfg.snapshots_database_enabled ∧
    (desktop_init_effects cfg).connectionsOpened
        = (if cfg.snapshots_database_enabled then 2 else 1) ∧
    (desktop_init_effects cfg).collectorStarted = true ∧
    (desktop_init_effects cfg).base_image_init = none := by
  cases cfg with
  | mk db mon => cases db <;> simp [desktop_init_effects]

/-- C7 counterexample: an exception while recording the first mouse event
stops the mouse listener — the later mouse event is never recorded even
though the keyboard event in between still is — refuting "a failure to
record one event never stops the listener" (and, with it, that the failure
is logged: the stored exception is never re-raised). -/
theorem C7_counterexample :
    runListeners
      [.mouseClick 1 2 true "t0" true,
       .keyPress "a" "t1" false,
       .mouseClick 3 4 true "t2" false]
      = ([.keyboard "a" "t1"], true) := by
  decide

/-- C7 (amended): an exception while recording a keyboard event is caught
in the handler (logged, and the keyboard listener continues as if the event
had not occurred); the mouse handler has no exception handling, so an
exception while recording a mouse event stops the mouse listener
permanently — subsequent mouse events are never recorded, while keyboard
events continue to be recorded — and that exception is never logged (it
would be re-raised only at `mouse_listener.join()`, which is never reached
behind the forever-blocking `key_listener.join()`); a failure to start the
OS listeners is logged and non-fatal, after which the Collector contributes
zero events. -/
theorem C7_listener_error_handling (key ts mts : String) (x y : Int)
    (pressed fails ms : Bool) (rest events : List RawEvent) :
    runListenersFrom ms (.keyPress key ts true :: rest)
        = runListenersFrom ms rest ∧
    runListenersFrom ms (.keyPress key ts false :: rest)
        = (.keyboard key ts :: (runListenersFrom ms rest).1,
           (runListenersFrom ms rest).2) ∧
    runListenersFrom false (.mouseClick x y pressed mts true :: rest)
        = runListenersFrom true rest ∧
    runListenersFrom true (.mouseClick x y pressed mts fails :: rest)
        = runListenersFrom true rest ∧
    monitor_user_input false events = ([], false) := by
  refine ⟨?_, ?_, ?_, ?_, ?_⟩ <;>
    simp [runListenersFrom, monitor_user_input]

/-- An OCR collaborator returning one concrete result. -/
def ocrOne : Img → List OcrResult :=
  fun _ => [{ text := "hi", left := 2, top := 3, right := 7, bottom := 5 }]

/-- C8: on a persisting capture cycle (non-degenerate diff, working store)
the OCR collaborator is invoked exactly once, on the full new frame (never
on the cropped diff), and the persisted annotations are exactly the OCR
results with rects mapped as
`(x, y, width, height) = (left, top, right - left, bottom - top)`. -/
theorem C8_ocr_contract (ocr : Img → List OcrResult) (ts : String)
    (s : DesktopState) (frame base : Img)
    (hb : s.base_image = some base)
    (hw : 0 < (diffRegion base frame).2.2.1)
    (hh : 0 < (diffRegion base frame).2.2.2) :
    (save_screenshot_diff ocr true ts s frame).ocrCalls = [frame] ∧
    ((save_screenshot_diff ocr true ts s frame).state.snapshots.map
        SnapshotRow.text)
      = (s.snapshots.map SnapshotRow.text) ++
        [(ocr frame).map (fun res =>
          { text := res.text, x := res.left, y := res.top,
            width := res.right - res.left,
            height := res.bottom - res.top : TextAnnotation })] := by
  simp [save_screenshot_diff, save_user_input, hb, hw, hh, toAnnotation]

/-- Witness for C8 at a concrete input: one OCR result with corners
`(2, 3, 7, 5)` is persisted as rect `(2, 3, 5, 2)`. -/
theorem C8_witness :
    (save_screenshot_diff ocrOne true "t" state0 img1).ocrCalls = [img1] ∧
    ((save_screenshot_diff ocrOne true "t" state0 img1).state.snapshots.map
        SnapshotRow.text)
      = [[{ text := "hi", x := 2, y := 3, width := 5, height := 2 }]] := by
  have h := C8_ocr_contract ocrOne "t" state0 img1 img0 rfl
    (by decide) (by decide)
  refine ⟨h.1, ?_⟩
  rw [h.2]
  decide

/-- A 1x1 frame whose gray distance from `img0` is below the threshold. -/
def img2 : Img := [[⟨10, 10, 10⟩]]

/-- A fresh shared state for the concurrency analysis. -/
def rinit : RaceState := { base := img0, read0 := none, read1 := none }

/-- C9 (code bug): the source creates `self.lock` but never acquires it, so
the four baseline accesses of two concurrent capture cycles may interleave
freely.  With baseline `img0` and frames `img1` (thread 0) and `img2`
(thread 1), the racy schedule read-read-write-write makes both threads diff
against the stale baseline `img0`; its pair of observed baselines matches
neither serial order, and the divergence is observable: thread 1's diff
against the stale baseline is degenerate (no record) while against the
serialized baseline it is non-degenerate (a record). -/
theorem C9_unserializable_interleaving :
    ((rrun img1 img2 rinit [.read0, .read1, .write0, .write1]).read0,
     (rrun img1 img2 rinit [.read0, .read1, .write0, .write1]).read1)
      = (some img0, some img0) ∧
    ((rrun img1 img2 rinit [.read0, .write0, .read1, .write1]).read0,
     (rrun img1 img2 rinit [.read0, .write0, .read1, .write1]).read1)
      = (some img0, some img1) ∧
    ((rrun img1 img2 rinit [.read1, .write1, .read0, .write0]).read0,
     (rrun img1 img2 rinit [.read1, .write1, .read0, .write0]).read1)
      = (some img2, some img0) ∧
    ((rrun img1 img2 rinit [.read0, .read1, .write0, .write1]).read0,
     (rrun img1 img2 rinit [.read0, .read1, .write0, .write1]).read1)
      ≠ ((rrun img1 img2 rinit [.read0, .write0, .read1, .write1]).read0,
         (rrun img1 img2 rinit [.read0, .write0, .read1, .write1]).read1) ∧
    ((rrun img1 img2 rinit [.read0, .read1, .write0, .write1]).read0,
     (rrun img1 img2 rinit [.read0, .read1, .write0, .write1]).read1)
      ≠ ((rrun img1 img2 rinit [.read1, .write1, .read0, .write0]).read0,
         (rrun img1 img2 rinit [.read1, .write1, .read0, .write0]).read1) ∧
    diffRegion img0 img2 = (0, 0, 0, 0) ∧
    diffRegion img1 img2 ≠ (0, 0, 0, 0) := by
  refine ⟨by decide, by decide, by decide, by decide, by decide, by decide,
    by decide⟩

/-- System steps never invent events: an event absent from the queue and
from every persisted row stays absent after any step that does not produce
it (capture cycles only move queued events into rows). -/
theorem eventAbsent_sysStep (e : InputEvent) (s : DesktopState) (st : SysStep)
    (h1 : e ∉ s.user_input_queue)
    (h2 : ∀ row ∈ s.snapshots, e ∉ row.user_input)
    (hst : ∀ e', st = .produce e' → e' ≠ e) :
    e ∉ (sysStep s st).user_input_queue ∧
      ∀ row ∈ (sysStep s st).snapshots, e ∉ row.user_input := by
  cases st with
  | produce e' =>
    have hne := hst e' rfl
    constructor
    · simp only [sysStep, List.mem_append, List.mem_singleton]
      rintro (hq | rfl)
      · exact h1 hq
      · exact hne rfl
    · simpa [sysStep] using h2
  | capture ocr storeOk ts frame =>
    simp only [sysStep]
    cases hb : s.base_image with
    | none =>
      simp [take_fullscreen_screenshot, save_screenshot_diff, save_user_input,
        hb, diffRegion_self]
      exact h2
    | some base =>
      by_cases hcond :
          0 < (diffRegion base frame).2.2.1 ∧ 0 < (diffRegion base frame).2.2.2
      · cases storeOk with
        | false =>
          simp [take_fullscreen_screenshot, save_screenshot_diff,
            save_user_input, hb, hcond]
          exact h2
        | true =>
          simp only [take_fullscreen_screenshot, save_screenshot_diff,
            save_user_input, hb, hcond, if_true, and_self, if_pos]
          refine ⟨by simp, ?_⟩
          intro row hrow
          simp only [List.mem_append, List.mem_singleton] at hrow
          rcases hrow with hrow | rfl
          · exact h2 row hrow
          · exact h1
      · simp [take_fullscreen_screenshot, save_screenshot_diff,
          save_user_input, hb, hcond]
        exact h2

/-- Iterated form of `eventAbsent_sysStep` over a run of system steps. -/
theorem eventAbsent_runSys (e : InputEvent) (steps : List SysStep)
    (s : DesktopState)
    (h1 : e ∉ s.user_input_queue)
    (h2 : ∀ row ∈ s.snapshots, e ∉ row.user_input)
    (hsteps : ∀ e', SysStep.produce e' ∈ steps → e' ≠ e) :
    ∀ row ∈ (runSys steps s).snapshots, e ∉ row.user_input := by
  induction steps generalizing s with
  | nil => simpa [runSys] using h2
  | cons st rest ih =>
    have hstep := eventAbsent_sysStep e s st h1 h2
      (fun e' he' => hsteps e' (by rw [he']; exact List.mem_cons_self _ _))
    exact ih (sysStep s st) hstep.1 hstep.2
      (fun e' he' => hsteps e' (List.mem_cons_of_mem _ he'))

/-- C10: every capture call with persistence enabled runs its diff step
against a non-`None` baseline (the first capture sets the baseline just
before the diff step) and empties the queue; when the cycle's region is
degenerate no record is appended, and a drained event that is in no
existing row and is never produced again appears in no SnapshotRecord of
any later run of the system. -/
theorem C10_degenerate_drain_discards (ocr : Img → List OcrResult)
    (storeOk : Bool) (ts : String) (s : DesktopState) (frame : Img)
    (e : InputEvent) (steps : List SysStep)
    (hdeg : ¬(0 < (cycleRegion s frame).2.2.1 ∧
              0 < (cycleRegion s frame).2.2.2))
    (he : e ∈ s.user_input_queue)
    (hnot : ∀ row ∈ s.snapshots, e ∉ row.user_input)
    (hsteps : ∀ e', SysStep.produce e' ∈ steps → e' ≠ e) :
    (take_fullscreen_screenshot ocr storeOk ts true s frame).1.state.user_input_queue
        = [] ∧
    (take_fullscreen_screenshot ocr storeOk ts true s frame).1.state.snapshots
        = s.snapshots ∧
    ∀ row ∈ (runSys steps
        (take_fullscreen_screenshot ocr storeOk ts true s frame).1.state).snapshots,
      e ∉ row.user_input := by
  have hpost :
      (take_fullscreen_screenshot ocr storeOk ts true s frame).1.state.user_input_queue
          = [] ∧
      (take_fullscreen_screenshot ocr storeOk ts true s frame).1.state.snapshots
          = s.snapshots := by
    cases hb : s.base_image with
    | none =>
      simp [take_fullscreen_screenshot, save_screenshot_diff, save_user_input,
        hb, diffRegion_self]
    | some base =>
      rw [cycleRegion, hb, Option.getD_some] at hdeg
      simp [take_fullscreen_screenshot, save_screenshot_diff, save_user_input,
        hb, hdeg]
  refine ⟨hpost.1, hpost.2, ?_⟩
  apply eventAbsent_runSys e steps _ _ _ hsteps
  · rw [hpost.1]
    exact List.not_mem_nil e
  · rw [hpost.2]
    exact hnot

/-- Witness for C10: a queued event, a degenerate first cycle, then a later
producing-and-capturing run: the drained event is in no persisted row. -/
theorem C10_witness :
    (take_fullscreen_screenshot ocrNone true "t" true state1 img0).1.state.user_input_queue
        = [] ∧
    (take_fullscreen_screenshot ocrNone true "t" true state1 img0).1.state.snapshots
        = [] ∧
    ∀ row ∈ (runSys
        [SysStep.produce (.mouse true 1 2 "t1"),
         SysStep.capture ocrNone true "t2" img1]
        (take_fullscreen_screenshot ocrNone true "t" true state1 img0).1.state).snapshots,
      evK ∉ row.user_input := by
  have h := C10_degenerate_drain_discards ocrNone true "t" state1 img0 evK
    [SysStep.produce (.mouse true 1 2 "t1"),
     SysStep.capture ocrNone true "t2" img1]
    (by decide) (by decide) (by simp [state1])
    (by
      intro e' he'
      simp only [List.mem_cons, List.not_mem_nil, or_false] at he'
      rcases he' with he' | he'
      · injection he' with hinj
        subst hinj
        decide
      · exact SysStep.noConfusion he')
  exact ⟨h.1, by rw [h.2.1]; rfl, h.2.2⟩

end Desktop
